import Mathlib

/-!
Verification of the Rinha interpreter (src/rinha.c, src/config.h) against its
natural-language specification.  The definitions below are a shallow embedding,
translated function by function from the C source; line numbers in the comments
refer to src/rinha.c unless stated otherwise.
-/

/-- Configuration constant from config.h: maximum string length (bytes). -/
def RINHA_CONFIG_STRING_VALUE_SIZE : Nat := 1024

/-- Configuration constant from config.h: number of buffers in the static string pool. -/
def RINHA_CONFIG_STRING_POOL_SIZE : Nat := 32

/-- Configuration constant from config.h: symbol table size (frame slots scanned on capture). -/
def RINHA_CONFIG_SYMBOLS_SIZE : Nat := 32

/-- Configuration constant from config.h: memoization cache bucket count. -/
def RINHA_CONFIG_CACHE_SIZE : Nat := 4099

/-- Configuration constant from config.h: caches start out enabled. -/
def RINHA_CONFIG_CACHE_ENABLE : Bool := true

/-- The value of INT64_MIN, the smallest RINHA_WORD (config.h defines RINHA_WORD as int64_t). -/
def INT64_MIN : Int := -(2 ^ 63)

/-- Mirrors `struct __primitive` (rinha.h): the type tag plus the
number/boolean/string/function union.  A primitive has no tuple payload, so a
tuple component can never itself be a tuple. A FUNCTION value's union holds the
`function_t *` pointer, modelled as an opaque integer address. -/
inductive RPrim : Type where
  | undef
  | int (n : Int)
  | bool (b : Bool)
  | str (s : String)
  | fnPtr (addr : Int)
deriving DecidableEq, Repr

/-- Mirrors `rinha_value_t` (rinha.h): the primitive fields plus the `tuple`
member holding two primitives. Strings are modelled by their byte content
(the pool aliasing of string buffers is modelled separately for C10). -/
inductive RVal : Type where
  | undef
  | int (n : Int)
  | bool (b : Bool)
  | str (s : String)
  | fnPtr (addr : Int)
  | tuple (first second : RPrim)
deriving DecidableEq, Repr

/-- The `number` union member as the C code reads it from a value of each type:
an INTEGER holds its number; a BOOLEAN was written as a one-byte 0/1 into the
zero-initialized union, so the 64-bit read gives 0 or 1; a FUNCTION holds the
`function_t *` pointer bits.  UNDEFINED values and values built by
`rinha_value_tuple_set_` come from `= {0}` initializers, so their union reads 0.
A STRING's union holds the pool pointer; no interpreter path modelled here reads
the number field of a string, so that arm returns 0. -/
def RVal.numberField : RVal → Int
  | .int n => n
  | .bool b => if b then 1 else 0
  | .fnPtr addr => addr
  | _ => 0

/-- Reinterpret a `struct __primitive` as a `rinha_value_t`, as the casts
`(rinha_value_t *)&value->tuple.first` in rinha_exec_first (line 886),
rinha_exec_second (line 909) and rinha_print_ (lines 193-195) do.  The type tag
and union are copied; the result's own `tuple` member is unobserved garbage
because the tag of a primitive is never TUPLE. -/
def valOfPrim : RPrim → RVal
  | .undef => .undef
  | .int n => .int n
  | .bool b => .bool b
  | .str s => .str s
  | .fnPtr a => .fnPtr a

/-- Reinterpret a `rinha_value_t` as a `struct __primitive`, as the casts
`*((struct __primitive *)&v1)` in rinha_value_tuple_set_ (lines 249-250) do.
`rinha_value_set_` never returns a TUPLE-tagged value, so the tuple arm is
unreachable from `rinha_value_tuple_set_`; it is mapped to undef only to make
the function total. -/
def primOfVal : RVal → RPrim
  | .undef => .undef
  | .int n => .int n
  | .bool b => .bool b
  | .str s => .str s
  | .fnPtr a => .fnPtr a
  | .tuple _ _ => (.undef : RPrim)

/-- Truncation to RINHA_CONFIG_STRING_VALUE_SIZE bytes performed by the
`strncpy(..., RINHA_CONFIG_STRING_VALUE_SIZE)` calls (lines 231, 1558). -/
def truncStr (s : String) : String :=
  String.mk (s.data.take RINHA_CONFIG_STRING_VALUE_SIZE)

/-- Mirrors rinha_value_number_set_ (lines 211-217). -/
def rinha_value_number_set_ (n : Int) : RVal := .int n

/-- Mirrors rinha_value_bool_set_ (lines 219-225). -/
def rinha_value_bool_set_ (b : Bool) : RVal := .bool b

/-- Mirrors rinha_value_string_set_ (lines 227-234): allocates a fresh pool
buffer and strncpy-copies at most RINHA_CONFIG_STRING_VALUE_SIZE bytes.  Here
only the content is modelled; the pool slot arithmetic is modelled below for C10. -/
def rinha_value_string_set_ (s : String) : RVal := .str (truncStr s)

/-- Mirrors rinha_value_set_ (lines 264-273): STRING and BOOLEAN are re-created
with their own constructors, every other type falls into the `default` arm and
becomes an INTEGER carrying the value's `number` union member. -/
def rinha_value_set_ : RVal → RVal
  | .str s => rinha_value_string_set_ s
  | .bool b => rinha_value_bool_set_ b
  | v => rinha_value_number_set_ v.numberField

/-- Mirrors rinha_value_tuple_set_ (lines 241-253): both components are passed
through rinha_value_set_ and then reinterpreted as `struct __primitive`. -/
def rinha_value_tuple_set_ (first second : RVal) : RVal :=
  .tuple (primOfVal (rinha_value_set_ first)) (primOfVal (rinha_value_set_ second))

/-- Fatal evaluation errors raised through rinha_error (lines 598-650). -/
inductive RErr : Type where
  | notTuple (which : String)
deriving DecidableEq, Repr

/-- Mirrors the value part of rinha_exec_first (lines 875-888): after the
argument expression has been evaluated, a non-TUPLE value is a fatal error and
otherwise the first primitive is reinterpreted as the result value. -/
def rinha_exec_first (v : RVal) : Except RErr RVal :=
  match v with
  | .tuple a _ => .ok (valOfPrim a)
  | _ => .error (.notTuple "first")

/-- Mirrors the value part of rinha_exec_second (lines 898-911). -/
def rinha_exec_second (v : RVal) : Except RErr RVal :=
  match v with
  | .tuple _ b => .ok (valOfPrim b)
  | _ => .error (.notTuple "second")

/-- Decimal digit characters of a natural number, with explicit fuel so that the
definition reduces computably; `natDecChars` below supplies sufficient fuel.
Mirrors the digit production of printf-style decimal formatting. -/
def natDecCharsAux : Nat → Nat → List Char
  | 0, _ => []
  | fuel + 1, n =>
    if n < 10 then [Char.ofNat (48 + n)]
    else natDecCharsAux fuel (n / 10) ++ [Char.ofNat (48 + n % 10)]

/-- Decimal digit characters of a natural number (most significant first). -/
def natDecChars (n : Nat) : List Char := natDecCharsAux (n + 1) n

/-- Decimal rendering of a natural number. -/
def natDec (n : Nat) : String := String.mk (natDecChars n)

/-- Decimal rendering of an integer, as the printf "%ld" conversion produces it. -/
def intDec (i : Int) : String :=
  if i < 0 then "-" ++ natDec (-i).toNat else natDec i.toNat

/-- Two's-complement wrap of an integer into the 32-bit signed range, the
behaviour of x86-64 when a wider (or pointer) argument is consumed by a
printf "%d" conversion or converted to `int`. -/
def int32wrap (i : Int) : Int := (i + 2 ^ 31) % 2 ^ 32 - 2 ^ 31

/-- Two's-complement wrap into the 64-bit signed range (int64_t arithmetic). -/
def int64wrap (i : Int) : Int := (i + 2 ^ 63) % 2 ^ 64 - 2 ^ 63

/-- Rendering produced by a printf "%d" conversion applied to a 64-bit or
pointer argument on x86-64: only the low 32 bits are consumed, as a signed int. -/
def dec32 (i : Int) : String := intDec (int32wrap i)

/-- The byte appended by the `"%s%c"`-style conversions of rinha_print_
(lines 163-186): `end_char` is 0x0a when a line feed is requested and 0x00
otherwise — and fprintf does write that NUL byte to the stream. -/
def printEnd (lf : Bool) : String := if lf then "\n" else "\x00"

/-- Mirrors rinha_print_ (lines 153-205) applied to a tuple component, which is
a `struct __primitive` reinterpreted as a value and therefore never a TUPLE:
the STRING/FUNCTION/INTEGER/BOOLEAN arms of the switch, in source order, each
followed by `end_char`.  The default (UNKNOWN) arm prints debug text and is
unreachable from values built by the constructors above. -/
def printPrimOut : RPrim → Bool → String
  | .str s, lf => s ++ printEnd lf
  | .fnPtr _, lf => "<#closure>" ++ printEnd lf
  | .int n, lf => intDec n ++ printEnd lf
  | .bool b, lf => (if b then "true" else "false") ++ printEnd lf
  | .undef, _ => "UNKNOWN"

/-- Mirrors rinha_print_ (lines 153-205) on a full value, `debug = false`:
the TUPLE arm (lines 188-197) prints "(", the first component with `lf = false`,
",", the second component with `lf = false`, and then `")\n"` — the trailing
newline is hard-coded in that arm regardless of `lf`. -/
def rinha_print_out : RVal → Bool → String
  | .str s, lf => s ++ printEnd lf
  | .fnPtr _, lf => "<#closure>" ++ printEnd lf
  | .int n, lf => intDec n ++ printEnd lf
  | .bool b, lf => (if b then "true" else "false") ++ printEnd lf
  | .tuple a b, _ => "(" ++ printPrimOut a false ++ "," ++ printPrimOut b false ++ ")\n"
  | .undef, _ => "UNKNOWN"

/-- Mirrors rinha_print_statement_ (lines 371-379): the argument value has been
evaluated into `ret`, is printed with a line feed, and `ret` is left unchanged,
so the statement returns the printed value; the pair is (returned value, bytes
written to stdout). -/
def rinha_print_statement_out (v : RVal) : RVal × String :=
  (v, rinha_print_out v true)

/-- The two operators handled by rinha_exec_calc_ (lines 1562-1587). -/
inductive CalcOp : Type where
  | plus
  | minus
deriving DecidableEq, Repr

/-- Whether a value's type tag is INTEGER. -/
def RVal.isInt : RVal → Bool
  | .int _ => true
  | _ => false

/-- Mirrors rinha_value_concat_ (lines 1529-1560).  The sprintf conversions are
reproduced including their type slips: an int64 `number` consumed by "%d" keeps
only its low 32 bits, and `BOOL_NAME(...)` — a `char *` pointing at the literal
"true" or "false" — consumed by "%d" renders the low 32 bits of that POINTER as
a decimal number (parameter `boolNameAddr` is the address of the literal).
The final strncpy truncates to RINHA_CONFIG_STRING_VALUE_SIZE.  Any other type
combination reaches the `"%s%s"` arm and dereferences a non-pointer union field,
which is undefined behaviour (a crash in practice), modelled as undef. -/
def rinha_value_concat_ (boolNameAddr : Bool → Int) (left right : RVal) : RVal :=
  match left, right with
  | .int n, .str s => .str (truncStr (dec32 n ++ s))
  | .str s, .int n => .str (truncStr (s ++ dec32 n))
  | .str s, .bool b => .str (truncStr (s ++ dec32 (boolNameAddr b)))
  | .bool b, .str s => .str (truncStr (dec32 (boolNameAddr b) ++ s))
  | .str s, .str t => .str (truncStr (s ++ t))
  | _, _ => (.undef : RVal)

/-- Mirrors one iteration of the rinha_exec_calc_ loop (lines 1565-1586): a `+`
with a non-INTEGER operand concatenates; otherwise the int64 numbers are added
or subtracted and the result is tagged INTEGER. -/
def rinha_exec_calc_step (boolNameAddr : Bool → Int) (op : CalcOp) (left right : RVal) : RVal :=
  if op = CalcOp.plus ∧ (left.isInt = false ∨ right.isInt = false) then
    rinha_value_concat_ boolNameAddr left right
  else
    match op with
    | .plus => .int (int64wrap (left.numberField + right.numberField))
    | .minus => .int (int64wrap (left.numberField - right.numberField))

/-- The three operators handled by rinha_exec_term_ (lines 1493-1518). -/
inductive TermOp : Type where
  | multiply
  | divide
  | mod
deriving DecidableEq, Repr

/-- Outcome of executing one evaluator step: a value, a fatal diagnostic printed
through rinha_error followed by exit(EXIT_FAILURE), or an unguarded hardware
trap (the C program performs the operation with no check, which for a zero
divisor is undefined behaviour — SIGFPE on x86 — with no diagnostic). -/
inductive ExecOutcome : Type where
  | ok (v : RVal)
  | fatal (msg : String)
  | trap
deriving DecidableEq, Repr

/-- Mirrors one iteration of the rinha_exec_term_ loop (lines 1506-1516) on the
operand numbers: `*=`, `/=`, `%=` on int64_t with NO divisor check — division
by zero, and INT64_MIN divided by -1, execute the machine instruction and trap.
C99 `/` truncates toward zero (Int.tdiv) and `%` has the sign of the dividend
(Int.tmod). -/
def rinha_exec_term_step (op : TermOp) (l r : Int) : ExecOutcome :=
  match op with
  | .multiply => .ok (.int (int64wrap (l * r)))
  | .divide =>
    if r = 0 ∨ (l = INT64_MIN ∧ r = -1) then .trap
    else .ok (.int (Int.tdiv l r))
  | .mod =>
    if r = 0 ∨ (l = INT64_MIN ∧ r = -1) then .trap
    else .ok (.int (Int.tmod l r))

/-- The `boolean` union member as the C code reads it (one byte of the union).
For a BOOLEAN it is the stored flag; for an INTEGER the read sees the low byte
of the number (little-endian).  For pointer payloads the low byte of the pointer
would be read; those arms are layout-dependent and unused by the theorems below. -/
def RVal.uBool : RVal → Bool
  | .bool b => b
  | .int n => n % 256 != 0
  | .fnPtr a => a % 256 != 0
  | .str _ => true
  | _ => false

/-- Print output accumulated left to right during expression evaluation. -/
abbrev PrintTrace := List String

/-- An operand evaluation step: given the output so far, produce the operand's
value and the extended output (rinha_exec_comparison_ and below may execute
`print`). -/
abbrev EvalStep := PrintTrace → RVal × PrintTrace

/-- Mirrors rinha_exec_logical_and_ (lines 1289-1302): the left operand is
evaluated first, then EVERY `&&`-joined right operand is evaluated in turn —
there is no short-circuit — and after each one `left.boolean` becomes the
conjunction of the two `boolean` union reads (`left.type = BOOLEAN`). -/
def rinha_exec_logical_and_ (first : EvalStep) (rest : List EvalStep) : EvalStep :=
  fun out =>
    rest.foldl
      (fun acc e =>
        let r := e acc.2
        (RVal.bool (acc.1.uBool && r.1.uBool), r.2))
      (first out)

/-- Mirrors rinha_exec_logical_or_ (lines 1312-1324), identically except for the
disjunction. -/
def rinha_exec_logical_or_ (first : EvalStep) (rest : List EvalStep) : EvalStep :=
  fun out =>
    rest.foldl
      (fun acc e =>
        let r := e acc.2
        (RVal.bool (acc.1.uBool || r.1.uBool), r.2))
      (first out)

/-- An operand that executes `print(msg)` somewhere inside and evaluates to the
boolean `b` — the observable-effect operand of claim C9. -/
def printingOperand (msg : String) (b : Bool) : EvalStep :=
  fun out => (RVal.bool b, out ++ [msg])

/-- A frame's slot contents, indexed by symbol id (stack_t.mem in rinha.h;
an unset slot holds type UNDEFINED because frames come from calloc). -/
abbrev Frame := Nat → RVal

/-- A frame with every slot unset. -/
def zeroFrame : Frame := fun _ => RVal.undef

/-- Mirrors rinha_var_get_ (lines 494-504): a slot that is defined in the
current frame wins, otherwise the lookup falls through to the global frame
(stacks[0]). -/
def rinha_var_get_ (ctx global : Frame) (hash : Nat) : RVal :=
  let v := ctx hash
  if v ≠ RVal.undef then v else global hash

/-- Mirrors the environment capture of rinha_prepare_closure (lines 1061-1069)
over the function record's PREVIOUS environment `prevEnv`: rinha_function_set_
(lines 516-525) never clears `call->env`, so registration preserves whatever an
earlier registration left there, and ONLY when `rinha_sp > 0` are the defined
slots with index below RINHA_CONFIG_SYMBOLS_SIZE of the creating frame written
over it.  A closure registered at global scope (sp = 0) captures nothing and
keeps `prevEnv` unchanged; on the first registration of a record `prevEnv` is
all UNDEFINED (the `calls` array is statically zeroed). -/
def rinha_prepare_closure_env (sp : Nat) (ctx : Frame) (prevEnv : Frame) : Frame :=
  fun i =>
    if 0 < sp ∧ i < RINHA_CONFIG_SYMBOLS_SIZE ∧ ctx i ≠ RVal.undef then ctx i
    else prevEnv i

/-- Mirrors the environment installation of rinha_exec_function_
(lines 1711-1715): each defined env slot below RINHA_CONFIG_SYMBOLS_SIZE is
copied into the callee frame; other slots keep the callee frame's contents. -/
def rinha_install_env (env : Frame) (callee : Frame) : Frame :=
  fun i =>
    if i < RINHA_CONFIG_SYMBOLS_SIZE ∧ env i ≠ RVal.undef then env i
    else callee i

/-- A stack frame with its population counter (stack_t in rinha.h). -/
structure StackFrame : Type where
  mem : Frame
  count : Nat

/-- Mirrors the frame cleanup on function return in rinha_exec_function_
(lines 1736-1737): `--rinha_sp; call->stack->count = 0;` — ONLY the counter is
reset; the slot array is left untouched. -/
def rinha_call_return_cleanup (f : StackFrame) : StackFrame :=
  { f with count := 0 }

/-- Events that touch the process-wide `cache_enabled` flag during one run:
every executed `print` statement clears it (rinha_print_statement_, line 378),
and every function call entered at stack pointer `sp` resets it to
RINHA_CONFIG_CACHE_ENABLE when `sp = 0` (rinha_exec_function_, lines 1704-1706). -/
inductive GlobalCacheEvent : Type where
  | printExec
  | callEnter (sp : Nat)
deriving DecidableEq, Repr

/-- One transition of the global cache flag. -/
def globalCacheStep (enabled : Bool) : GlobalCacheEvent → Bool
  | .printExec => false
  | .callEnter sp => if sp = 0 then RINHA_CONFIG_CACHE_ENABLE else enabled

/-- The global cache flag after a sequence of events within one run. -/
def globalCacheRun (enabled : Bool) (es : List GlobalCacheEvent) : Bool :=
  es.foldl globalCacheStep enabled

/-- Events that touch one function's `cache_enabled` flag: registering the
function literal sets it to RINHA_CONFIG_CACHE_ENABLE (rinha_function_set_,
line 522, run from rinha_prepare_closure each time the literal is reached), and
an impurity observation clears it (rinha_check_cache_availability during the
body scan, or a non-integer argument in rinha_call_memo_cache_get_). -/
inductive FnCacheEvent : Type where
  | register
  | impurityObserved
deriving DecidableEq, Repr

/-- One transition of a function's cache flag. -/
def fnCacheStep (_enabled : Bool) : FnCacheEvent → Bool
  | .register => RINHA_CONFIG_CACHE_ENABLE
  | .impurityObserved => false

/-- A function's cache flag after a sequence of events within one run. -/
def fnCacheRun (enabled : Bool) (es : List FnCacheEvent) : Bool :=
  es.foldl fnCacheStep enabled

/-- The static string pool (lines 136-141): a uint32_t counter and
RINHA_CONFIG_STRING_POOL_SIZE fixed buffers; `pool` maps buffer index to its
current byte content. -/
structure StringPool : Type where
  index : Nat
  pool : Nat → String

/-- Mirrors rinha_alloc_static_string (lines 138-141): pre-increment the
uint32_t counter (wrapping at 2^32) and hand out buffer `index % 32`; there is
no exhaustion check of any kind — the function is total. -/
def rinha_alloc_static_string (p : StringPool) : Nat × StringPool :=
  let idx := (p.index + 1) % 2 ^ 32
  (idx % RINHA_CONFIG_STRING_POOL_SIZE, { p with index := idx })

/-- Mirrors the pool effect of rinha_value_string_set_ (lines 227-234): a fresh
buffer is allocated and the (truncated) bytes are copied into it; the returned
index is the buffer backing the new string value. -/
def rinha_value_string_set_alloc (p : StringPool) (s : String) : Nat × StringPool :=
  let r := rinha_alloc_static_string p
  (r.1, { r.2 with pool := Function.update r.2.pool r.1 (truncStr s) })

/-- A sequence of string creations (string literals, concatenations, copies),
each of which goes through rinha_alloc_static_string. -/
def stringPoolRun (p : StringPool) (ss : List String) : StringPool :=
  ss.foldl (fun acc s => (rinha_value_string_set_alloc acc s).2) p

/-- Unsigned 32-bit read of an int64 number, as the cast
`(unsigned int)(v->number)` in rinha_hash_stack_ performs it. -/
def toUInt32Nat (i : Int) : Nat := (i % 2 ^ 32).toNat

/-- Conversion of an unsigned 32-bit quantity to `int`
(two's-complement wrap, the gcc behaviour). -/
def toInt32OfNat (n : Nat) : Int := int32wrap (Int.ofNat n)

/-- Mirrors rinha_hash_num (lines 307-309): `(n * 31 + k) % RINHA_CONFIG_CACHE_SIZE`
in C `int` arithmetic — the product wraps at 32 bits and `%` keeps the sign of
the dividend. -/
def rinha_hash_num (n k : Int) : Int :=
  Int.tmod (int32wrap (n * 31 + k)) (Int.ofNat RINHA_CONFIG_CACHE_SIZE)

/-- Mirrors rinha_hash_stack_ (lines 322-334) over the numbers of the arguments
installed in the callee frame: `hash ^= (unsigned)(number); hash =
rinha_hash_num(hash, i);` per argument, then a final `% RINHA_CONFIG_CACHE_SIZE`. -/
def rinha_hash_stack_ (args : List Int) : Nat :=
  (args.enum.foldl
    (fun h p =>
      let h1 := h ^^^ toUInt32Nat p.2
      toUInt32Nat (rinha_hash_num (toInt32OfNat h1) (Int.ofNat p.1)))
    0) % RINHA_CONFIG_CACHE_SIZE

/-- The STRING arm of rinha_var_copy (lines 1338-1340): allocate a pool buffer
and strcpy the bytes into it (plain strcpy, no truncation). -/
def rinha_var_copy_str_alloc (p : StringPool) (s : String) : Nat × StringPool :=
  let r := rinha_alloc_static_string p
  (r.1, { r.2 with pool := Function.update r.2.pool r.1 s })

/-- A primitive as it sits inside a cache entry after rinha_var_copy: a STRING
is NOT stored by content — `var1->string = rinha_alloc_static_string()` makes
the entry point at a buffer of the recyclable 32-slot pool, so later creations
can overwrite the cached bytes.  Other payloads are stored by value. -/
inductive CachedPrim : Type where
  | undef
  | int (n : Int)
  | bool (b : Bool)
  | strSlot (slot : Nat)
  | fnPtr (addr : Int)
deriving DecidableEq, Repr

/-- A value as it sits inside a cache entry after rinha_var_copy (pool slot
references instead of string bytes, also inside tuple components). -/
inductive CachedVal : Type where
  | undef
  | int (n : Int)
  | bool (b : Bool)
  | strSlot (slot : Nat)
  | fnPtr (addr : Int)
  | tuple (first second : CachedPrim)
deriving DecidableEq, Repr

/-- rinha_var_copy (lines 1327-1352) copying a primitive INTO a cache entry:
INTEGER/BOOLEAN/FUNCTION by value, STRING into a freshly allocated pool buffer
whose index the entry keeps, UNDEFINED copies only the type tag. -/
def rinha_var_copy_prim_in (p : StringPool) : RPrim → CachedPrim × StringPool
  | .int n => (.int n, p)
  | .bool b => (.bool b, p)
  | .str s =>
    let r := rinha_var_copy_str_alloc p s
    (.strSlot r.1, r.2)
  | .fnPtr a => (.fnPtr a, p)
  | .undef => (.undef, p)

/-- rinha_var_copy (lines 1327-1352) copying a value INTO a cache entry
(`rinha_var_copy(&cache->value, value)`, line 1683); the TUPLE arm recurses on
the first component and then on the second. -/
def rinha_var_copy_in (p : StringPool) : RVal → CachedVal × StringPool
  | .int n => (.int n, p)
  | .bool b => (.bool b, p)
  | .str s =>
    let r := rinha_var_copy_str_alloc p s
    (.strSlot r.1, r.2)
  | .fnPtr a => (.fnPtr a, p)
  | .undef => (.undef, p)
  | .tuple a b =>
    let ra := rinha_var_copy_prim_in p a
    let rb := rinha_var_copy_prim_in ra.2 b
    (.tuple ra.1 rb.1, rb.2)

/-- rinha_var_copy copying a cached primitive back OUT of the cache: a
strSlot reads whatever bytes its pool buffer holds NOW — possibly overwritten
since the entry was stored — and strcpy-copies them into a fresh buffer. -/
def rinha_var_copy_prim_out (p : StringPool) : CachedPrim → RPrim × StringPool
  | .int n => (.int n, p)
  | .bool b => (.bool b, p)
  | .strSlot slot =>
    let r := rinha_var_copy_str_alloc p (p.pool slot)
    (.str (p.pool slot), r.2)
  | .fnPtr a => (.fnPtr a, p)
  | .undef => (.undef, p)

/-- rinha_var_copy copying a cached value back OUT of the cache
(`rinha_var_copy(ret, &cache->value)`, line 1641), first component first. -/
def rinha_var_copy_out (p : StringPool) : CachedVal → RVal × StringPool
  | .int n => (.int n, p)
  | .bool b => (.bool b, p)
  | .strSlot slot =>
    let r := rinha_var_copy_str_alloc p (p.pool slot)
    (.str (p.pool slot), r.2)
  | .fnPtr a => (.fnPtr a, p)
  | .undef => (.undef, p)
  | .tuple a b =>
    let ra := rinha_var_copy_prim_out p a
    let rb := rinha_var_copy_prim_out ra.2 b
    (.tuple ra.1 rb.1, rb.2)

/-- Mirrors cache_t together with the input0/input1/input2 members that
rinha_call_memo_cache_set_ stores (lines 1680-1683): the `number` members of
the three compared argument slots, and the cached result value as
rinha_var_copy leaves it — string payloads as pool slot references.  The
`cached` flag is modelled by the bucket being occupied (`some`). -/
structure CacheEntry : Type where
  input0 : Int
  input1 : Int
  input2 : Int
  value : CachedVal
deriving DecidableEq, Repr

/-- The memoization state of one function: its cache buckets, the `cache_size`
counter, the function's `cache_enabled` flag, the process-wide `cache_enabled`
flag, and the static string pool that cached string payloads live in. -/
structure MemoState : Type where
  cache : Nat → Option CacheEntry
  cacheSize : Nat
  fnEnabled : Bool
  globalEnabled : Bool
  pool : StringPool

/-- The three argument slots read by rinha_function_get_arg for indices 0, 1, 2
(for a function of fewer parameters the trailing slots read a fixed frame cell,
UNDEFINED in the simplest case). -/
structure ArgSlots : Type where
  arg0 : RVal
  arg1 : RVal
  arg2 : RVal
deriving DecidableEq, Repr

/-- The test `arg->type != UNDEFINED && arg->type != INTEGER` of
rinha_call_memo_cache_get_ (lines 1616, 1623, 1630). -/
def intArgNonInt (v : RVal) : Bool :=
  match v with
  | .undef => false
  | .int _ => false
  | _ => true

/-- Mirrors rinha_call_memo_cache_get_ (lines 1602-1647), in source order:
flags check; `cached` check; the three per-argument type checks, each clearing
the function's flag on a non-integer argument; the exact comparison of the
stored input numbers with the current argument numbers; and finally
`rinha_var_copy(ret, &cache->value)` (line 1641), which reads a cached string
payload from its pool buffer AS THE BUFFER IS NOW — the bytes may have been
overwritten by pool recycling since the entry was stored. -/
def rinha_call_memo_cache_get_ (st : MemoState) (args : ArgSlots) (h : Nat) :
    Option RVal × MemoState :=
  if ¬ (st.globalEnabled ∧ st.fnEnabled) then (none, st)
  else
    match st.cache h with
    | none => (none, st)
    | some cache =>
      if intArgNonInt args.arg0 then (none, { st with fnEnabled := false })
      else if intArgNonInt args.arg1 then (none, { st with fnEnabled := false })
      else if intArgNonInt args.arg2 then (none, { st with fnEnabled := false })
      else if cache.input0 ≠ args.arg0.numberField ∨ cache.input1 ≠ args.arg1.numberField ∨
          cache.input2 ≠ args.arg2.numberField then (none, st)
      else (some (rinha_var_copy_out st.pool cache.value).1,
        { st with pool := (rinha_var_copy_out st.pool cache.value).2 })

/-- Mirrors rinha_call_memo_cache_set_ (lines 1659-1686), in source order:
flags check; collision check (first writer wins); the `++call->cache_size`
capacity check (the counter is bumped even when nothing is stored); then the
rinha_var_copy of the three argument numbers — integers copy their `number`,
an UNDEFINED slot copies only the type tag, leaving the zero-initialized
number 0, which coincides with `RVal.numberField .undef` — and finally
`rinha_var_copy(&cache->value, value)` (line 1683), which places a string
result's bytes in a freshly allocated pool buffer the entry then points at. -/
def rinha_call_memo_cache_set_ (st : MemoState) (args : ArgSlots) (value : RVal) (h : Nat) :
    MemoState :=
  if ¬ (st.globalEnabled ∧ st.fnEnabled) then st
  else
    match st.cache h with
    | some _ => st
    | none =>
      if RINHA_CONFIG_CACHE_SIZE ≤ st.cacheSize + 1 then { st with cacheSize := st.cacheSize + 1 }
      else
        { st with
          cacheSize := st.cacheSize + 1
          pool := (rinha_var_copy_in st.pool value).2
          cache := Function.update st.cache h (some
            { input0 := args.arg0.numberField
              input1 := args.arg1.numberField
              input2 := args.arg2.numberField
              value := (rinha_var_copy_in st.pool value).1 }) }

/-- The three integer argument numbers of one call to the memoized function
(claim C1 restricts to all-integer arguments; for fewer than three parameters
the trailing components are the fixed numbers read from the unused slots). -/
structure ArgTriple : Type where
  a0 : Int
  a1 : Int
  a2 : Int
deriving DecidableEq, Repr

/-- The argument slots seen by the cache for an all-integer call. -/
def argSlotsOf (a : ArgTriple) : ArgSlots :=
  { arg0 := .int a.a0, arg1 := .int a.a1, arg2 := .int a.a2 }

/-- The argument triple stored in a cache entry. -/
def entryTriple (e : CacheEntry) : ArgTriple :=
  { a0 := e.input0, a1 := e.input1, a2 := e.input2 }

/-- The body of a pure recursive function as its interaction skeleton: it either
returns a value, makes a recursive self-call and continues with the result, or
creates a string through the static pool (a string literal or a concatenation
result — rinha_value_string_set_, allowed in a pure body) and continues with
it.  Purity of the claimed function means the body performs no print and no
write to captured or global state; it does not forbid string creation. -/
inductive CallTree : Type where
  | ret (v : RVal)
  | call (a : ArgTriple) (k : RVal → CallTree)
  | mkStr (s : String) (k : RVal → CallTree)

/-- Reference value semantics: evaluation with the memo cache out of the
picture (the spec's run with the global kill-switch treated as fired from the
start).  `fuel` bounds the step count; each entered call and each string
creation consumes one unit.  A created string's content is carried in the
value, so this reference run is pool-independent. -/
def evalPure (F : ArgTriple → CallTree) : Nat → CallTree → Option RVal
  | _, .ret v => some v
  | 0, .call _ _ => none
  | 0, .mkStr _ _ => none
  | fuel + 1, .call a k =>
    match evalPure F fuel (F a) with
    | none => none
    | some v => evalPure F fuel (k v)
  | fuel + 1, .mkStr s k => evalPure F fuel (k (.str (truncStr s)))

/-- Implementation semantics: each call goes through the memoization protocol of
rinha_exec_function_ (lines 1720-1733) — the hash is computed only when both
flags are up (line 1722); on a cache hit the body is skipped; on a miss the
body runs and the result is stored under the same hash — and each string
creation allocates the next buffer of the shared recyclable pool. -/
def evalMemo (F : ArgTriple → CallTree) : Nat → MemoState → CallTree → Option RVal × MemoState
  | _, st, .ret v => (some v, st)
  | 0, st, .call _ _ => (none, st)
  | 0, st, .mkStr _ _ => (none, st)
  | fuel + 1, st, .mkStr s k =>
    evalMemo F fuel { st with pool := (rinha_value_string_set_alloc st.pool s).2 }
      (k (.str (truncStr s)))
  | fuel + 1, st, .call a k =>
    let h := if st.globalEnabled ∧ st.fnEnabled then rinha_hash_stack_ [a.a0, a.a1, a.a2] else 0
    match rinha_call_memo_cache_get_ st (argSlotsOf a) h with
    | (some v, st1) => evalMemo F fuel st1 (k v)
    | (none, st1) =>
      match evalMemo F fuel st1 (F a) with
      | (none, st2) => (none, st2)
      | (some v, st2) =>
        evalMemo F fuel (rinha_call_memo_cache_set_ st2 (argSlotsOf a) v h) (k v)

/-- Whether a primitive contains no string payload (nothing pool-backed). -/
def strFreePrim : RPrim → Bool
  | .str _ => false
  | _ => true

/-- Whether a value contains no string payload anywhere: such a value is
stored in a cache entry by value and cannot be corrupted by pool recycling. -/
def strFree : RVal → Bool
  | .str _ => false
  | .tuple a b => strFreePrim a && strFreePrim b
  | _ => true

/-- Cache soundness invariant: every occupied bucket stores, by value, the
string-free pure result of the function at the stored argument numbers —
reading it back out returns that result and leaves the pool untouched. -/
def MemoInv (F : ArgTriple → CallTree) (st : MemoState) : Prop :=
  ∀ h e, st.cache h = some e →
    ∃ fuel v, evalPure F fuel (F (entryTriple e)) = some v ∧ strFree v = true ∧
      ∀ p : StringPool, rinha_var_copy_out p e.value = (v, p)

/-- The spec's comparison run: the global kill-switch fired before execution. -/
def killSwitch (st : MemoState) : MemoState :=
  { st with globalEnabled := false }

/-- The memoization state at the start of a run: empty cache, both flags at
their configured initial value, zeroed string pool. -/
def initMemoState : MemoState :=
  { cache := fun _ => none
    cacheSize := 0
    fnEnabled := RINHA_CONFIG_CACHE_ENABLE
    globalEnabled := RINHA_CONFIG_CACHE_ENABLE
    pool := { index := 0, pool := fun _ => "" } }

/-- A run segment performing `n` string creations (the C10 claim's scenario
inside a call tree), then continuing with `t`. -/
def mkStrs : Nat → CallTree → CallTree
  | 0, t => t
  | n + 1, t => .mkStr "x" (fun _ => mkStrs n t)

/-- Whether a value survives the primitive round-trip of tuple construction
unchanged: INTEGER and BOOLEAN always, STRING when it fits the pool buffer;
FUNCTION and TUPLE components are corrupted by the default arm of
rinha_value_set_. -/
def roundTrips (v : RVal) : Bool :=
  match v with
  | .int _ => true
  | .bool _ => true
  | .str s => decide (s.data.length ≤ RINHA_CONFIG_STRING_VALUE_SIZE)
  | _ => false

/-- Helper: a value that satisfies `roundTrips` survives the primitive
round-trip performed by rinha_value_tuple_set_ on each component. -/
theorem valOfPrim_primOfVal_set (v : RVal) (h : roundTrips v = true) :
    valOfPrim (primOfVal (rinha_value_set_ v)) = v := by
  cases v with
  | int n => rfl
  | bool b => rfl
  | str s =>
    have hlen : s.data.length ≤ RINHA_CONFIG_STRING_VALUE_SIZE := by
      simpa [roundTrips] using h
    cases s with
    | mk data =>
      simp only [rinha_value_set_, rinha_value_string_set_, valOfPrim, primOfVal, truncStr]
      simp [List.take_of_length_le hlen]
  | undef => simp [roundTrips] at h
  | fnPtr a => simp [roundTrips] at h
  | tuple a b => simp [roundTrips] at h

/-- Helper: from a disabled global flag, a trace without depth-0 call entries
never re-raises the flag. -/
theorem globalCacheRun_false_of_no_top :
    ∀ es : List GlobalCacheEvent, (∀ e ∈ es, e ≠ GlobalCacheEvent.callEnter 0) →
      globalCacheRun false es = false := by
  intro es
  induction es with
  | nil => intro _; rfl
  | cons e es ih =>
    intro h
    have hstep : globalCacheStep false e = false := by
      cases e with
      | printExec => rfl
      | callEnter sp =>
        have hsp : sp ≠ 0 := by
          intro hsp0
          exact h (GlobalCacheEvent.callEnter sp) (List.mem_cons_self _ _) (by rw [hsp0])
        simp [globalCacheStep, hsp]
    have htail := ih (fun x hx => h x (List.mem_cons_of_mem _ hx))
    simpa [globalCacheRun, List.foldl_cons, hstep] using htail

/-- Helper: any trace ending in an executed print leaves the global flag down. -/
theorem globalCacheRun_print_last (b : Bool) (es : List GlobalCacheEvent) :
    globalCacheRun b (es ++ [GlobalCacheEvent.printExec]) = false := by
  simp [globalCacheRun, List.foldl_append, globalCacheStep]

/-- Helper: from a disabled per-function flag, a trace without re-registration
never re-raises the flag. -/
theorem fnCacheRun_false_of_no_register :
    ∀ fs : List FnCacheEvent, FnCacheEvent.register ∉ fs →
      fnCacheRun false fs = false := by
  intro fs
  induction fs with
  | nil => intro _; rfl
  | cons e es ih =>
    intro h
    have hstep : fnCacheStep false e = false := by
      cases e with
      | register => exact absurd (List.mem_cons_self _ _) h
      | impurityObserved => rfl
    have htail := ih (fun hx => h (List.mem_cons_of_mem _ hx))
    simpa [fnCacheRun, List.foldl_cons, hstep] using htail

/-- C2 counterexample: in the run of the program
`print(1); let id = fn (x) => { x }; id(2);` the global cache flag is cleared by
the print and then re-raised by the call to `id`, which enters
rinha_exec_function_ at stack depth 0 (lines 1704-1706 reset the flag to
RINHA_CONFIG_CACHE_ENABLE).  So "cleared is never re-raised before the run ends"
is false: the flag is `false` after the print yet `true` after the subsequent
depth-0 call of the same run. -/
theorem c2_counterexample :
    globalCacheRun true [GlobalCacheEvent.printExec] = false ∧
    globalCacheRun true [GlobalCacheEvent.printExec, GlobalCacheEvent.callEnter 0] = true := by
  constructor
  · rfl
  · rfl

/-- C2 (amended): the global cache flag is cleared on every executed print and
re-initialized to enabled at every function call entered at stack depth 0; in
any trace segment free of depth-0 call entries, disabled is absorbing.  A
function's flag is set to enabled each time its literal is registered and,
between registrations, only moves from enabled to disabled. -/
theorem c2_amended (b : Bool) (esAfterClear esAny : List GlobalCacheEvent)
    (fs : List FnCacheEvent)
    (hglobal : ∀ e ∈ esAfterClear, e ≠ GlobalCacheEvent.callEnter 0)
    (hfn : FnCacheEvent.register ∉ fs) :
    globalCacheRun false esAfterClear = false ∧
    globalCacheRun b (esAny ++ [GlobalCacheEvent.printExec]) = false ∧
    globalCacheStep b (GlobalCacheEvent.callEnter 0) = true ∧
    fnCacheRun false fs = false := by
  refine ⟨globalCacheRun_false_of_no_top esAfterClear hglobal,
    globalCacheRun_print_last b esAny, ?_, fnCacheRun_false_of_no_register fs hfn⟩
  rfl

/-- C2 witness: the amended statement at a concrete trace. -/
theorem c2_amended_witness :
    ((∀ e ∈ [GlobalCacheEvent.callEnter 1], e ≠ GlobalCacheEvent.callEnter 0) ∧
      FnCacheEvent.register ∉ [FnCacheEvent.impurityObserved]) ∧
    (globalCacheRun false [GlobalCacheEvent.callEnter 1] = false ∧
      globalCacheRun true ([GlobalCacheEvent.printExec] ++ [GlobalCacheEvent.printExec]) = false ∧
      globalCacheStep true (GlobalCacheEvent.callEnter 0) = true ∧
      fnCacheRun false [FnCacheEvent.impurityObserved] = false) :=
  ⟨⟨by decide, by decide⟩,
    c2_amended true [GlobalCacheEvent.callEnter 1] [GlobalCacheEvent.printExec]
      [FnCacheEvent.impurityObserved] (by decide) (by decide)⟩

/-- C3 counterexample: the program `let x = 1; let f = fn () => { x }; let x = 2; f()`
registers `f` at global scope (rinha_sp = 0), where rinha_prepare_closure
(lines 1061-1069) captures NOTHING because the capture loop is guarded by
`rinha_sp > 0`.  Here the record's environment is still in its statically
zeroed first-registration state (prevEnv = zeroFrame) and the call is the first
one at depth 1, so the callee frame stacks[1] is still calloc-fresh
(zeroFrame); rinha_var_get_ then falls through to the CURRENT global frame:
with `x` at symbol id 5, the call reads 2, not the creation-time value 1. -/
theorem c3_counterexample :
    rinha_var_get_
        (rinha_install_env
          (rinha_prepare_closure_env 0 (fun i => if i = 5 then RVal.int 1 else RVal.undef)
            zeroFrame)
          zeroFrame)
        (fun i => if i = 5 then RVal.int 2 else RVal.undef) 5 = RVal.int 2 ∧
    RVal.int 2 ≠ RVal.int 1 := by
  constructor
  · rfl
  · decide

/-- C3 (amended): a closure registered during a function call (stack depth > 0)
snapshots the defined slots with symbol id below RINHA_CONFIG_SYMBOLS_SIZE of
the creating frame over the record's previous environment, and a later call
reads the snapshot for those names whatever the callee frame holds, unaffected
by any rebinding in the creating scope or the global frame.  A registration at
global scope writes nothing: it leaves the record's previous environment
unchanged, and when that environment is empty (a first registration) the
closure installs nothing, so a call resolves each name through the callee
frame at that depth — which may hold leftovers of an earlier call, frames not
being zeroed on return — and otherwise through the global frame's CURRENT
value; the creation-time snapshot semantics of the claim does not hold at
global scope. -/
theorem c3_amended (sp : Nat) (ctx prevEnv callee laterGlobal : Frame) (h : Nat)
    (hsp : 0 < sp) (hh : h < RINHA_CONFIG_SYMBOLS_SIZE) (hdef : ctx h ≠ RVal.undef) :
    rinha_var_get_ (rinha_install_env (rinha_prepare_closure_env sp ctx prevEnv) callee)
        laterGlobal h = ctx h ∧
    (∀ i, rinha_prepare_closure_env 0 ctx prevEnv i = prevEnv i) ∧
    (∀ h2, rinha_var_get_
        (rinha_install_env (rinha_prepare_closure_env 0 ctx zeroFrame) callee)
        laterGlobal h2 = rinha_var_get_ callee laterGlobal h2) := by
  refine ⟨?_, ?_, ?_⟩
  · simp [rinha_var_get_, rinha_install_env, rinha_prepare_closure_env, hsp, hh, hdef]
  · intro i
    simp [rinha_prepare_closure_env]
  · intro h2
    simp [rinha_var_get_, rinha_install_env, rinha_prepare_closure_env, zeroFrame]

/-- C3 witness: the amended statement at stack depth 1, symbol id 3, captured
value 7, over an empty previous environment, with a callee frame holding a
leftover 99 in slot 4 and the creating scope subsequently rebound to 9. -/
theorem c3_amended_witness :
    (0 < 1 ∧ 3 < RINHA_CONFIG_SYMBOLS_SIZE ∧
      (fun i => if i = 3 then RVal.int 7 else RVal.undef) 3 ≠ RVal.undef) ∧
    (rinha_var_get_
        (rinha_install_env
          (rinha_prepare_closure_env 1 (fun i => if i = 3 then RVal.int 7 else RVal.undef)
            zeroFrame)
          (fun i => if i = 4 then RVal.int 99 else RVal.undef))
        (fun i => if i = 3 then RVal.int 9 else RVal.undef) 3
      = (fun i => if i = 3 then RVal.int 7 else RVal.undef) 3 ∧
    (∀ i, rinha_prepare_closure_env 0 (fun j => if j = 3 then RVal.int 7 else RVal.undef)
        zeroFrame i = zeroFrame i) ∧
    (∀ h2, rinha_var_get_
        (rinha_install_env
          (rinha_prepare_closure_env 0 (fun j => if j = 3 then RVal.int 7 else RVal.undef)
            zeroFrame)
          (fun i => if i = 4 then RVal.int 99 else RVal.undef))
        (fun i => if i = 3 then RVal.int 9 else RVal.undef) h2
      = rinha_var_get_ (fun i => if i = 4 then RVal.int 99 else RVal.undef)
          (fun i => if i = 3 then RVal.int 9 else RVal.undef) h2)) :=
  ⟨⟨by decide, by decide, by decide⟩,
    c3_amended 1 (fun j => if j = 3 then RVal.int 7 else RVal.undef) zeroFrame
      (fun i => if i = 4 then RVal.int 99 else RVal.undef)
      (fun i => if i = 3 then RVal.int 9 else RVal.undef) 3
      (by decide) (by decide) (by decide)⟩

/-- C4 counterexample: rinha_exec_function_ resets only the population counter
on return (`call->stack->count = 0`, line 1737); the slot array is untouched.
A frame whose slot 4 holds 99 still holds 99 after the cleanup, and a later
call at the same depth that looks up symbol 4 (unset in its own bindings and in
the global frame) observes the leftover 99 through rinha_var_get_. -/
theorem c4_counterexample :
    (rinha_call_return_cleanup
        { mem := fun i => if i = 4 then RVal.int 99 else RVal.undef, count := 1 }).mem 4
      = RVal.int 99 ∧
    RVal.int 99 ≠ RVal.undef ∧
    rinha_var_get_
        (rinha_call_return_cleanup
          { mem := fun i => if i = 4 then RVal.int 99 else RVal.undef, count := 1 }).mem
        zeroFrame 4 = RVal.int 99 := by
  refine ⟨rfl, by decide, rfl⟩

/-- C4 (amended): on function return only the frame's population counter is
reset to zero; every slot keeps the value it held, so a later call executing at
the same stack depth can observe values left behind by an earlier call unless
it overwrites them. -/
theorem c4_amended (f : StackFrame) :
    (rinha_call_return_cleanup f).count = 0 ∧
    ∀ i, (rinha_call_return_cleanup f).mem i = f.mem i :=
  ⟨rfl, fun _ => rfl⟩

/-- C5 counterexample: for the nested tuple `((1, 2), 3)`,
rinha_value_tuple_set_ passes the inner tuple through rinha_value_set_, whose
default arm turns it into an INTEGER carrying the tuple's zero-initialized
`number` union member. `first(((1, 2), 3))` therefore evaluates to the integer
0, not to the tuple `(1, 2)`. -/
theorem c5_counterexample :
    rinha_exec_first
        (rinha_value_tuple_set_ (rinha_value_tuple_set_ (RVal.int 1) (RVal.int 2)) (RVal.int 3))
      = Except.ok (RVal.int 0) ∧
    RVal.int 0 ≠ rinha_value_tuple_set_ (RVal.int 1) (RVal.int 2) := by
  constructor
  · rfl
  · decide

/-- C5 (amended): `first((a, b)) = a` and `second((a, b)) = b` hold for integer
and boolean components, and for string components that fit in a pool buffer;
a tuple or function component does NOT round-trip — it is corrupted into an
integer by the default arm of rinha_value_set_. -/
theorem c5_amended (a b : RVal) (ha : roundTrips a = true) (hb : roundTrips b = true) :
    rinha_exec_first (rinha_value_tuple_set_ a b) = Except.ok a ∧
    rinha_exec_second (rinha_value_tuple_set_ a b) = Except.ok b := by
  constructor
  · simp [rinha_exec_first, rinha_value_tuple_set_, valOfPrim_primOfVal_set a ha]
  · simp [rinha_exec_second, rinha_value_tuple_set_, valOfPrim_primOfVal_set b hb]

/-- C5 witness: the amended round-trip at the concrete tuple `(5, "x")`. -/
theorem c5_amended_witness :
    (roundTrips (RVal.int 5) = true ∧ roundTrips (RVal.str "x") = true) ∧
    (rinha_exec_first (rinha_value_tuple_set_ (RVal.int 5) (RVal.str "x"))
        = Except.ok (RVal.int 5) ∧
      rinha_exec_second (rinha_value_tuple_set_ (RVal.int 5) (RVal.str "x"))
        = Except.ok (RVal.str "x")) :=
  ⟨⟨by decide, by decide⟩,
    c5_amended (RVal.int 5) (RVal.str "x") (by decide) (by decide)⟩

/-- C9: `l && r` and `l || r` evaluate BOTH operands — rinha_exec_logical_and_
(lines 1289-1302) and rinha_exec_logical_or_ (lines 1312-1324) always run the
right-hand rinha_exec_comparison_ before combining — so a print inside the
right operand executes even when the left operand alone (here an arbitrary
boolean, including `false` for `&&` and `true` for `||`) already determines the
result, and the value is the boolean conjunction respectively disjunction. -/
theorem c9_no_short_circuit (b1 b2 : Bool) (m1 m2 : String) :
    rinha_exec_logical_and_ (printingOperand m1 b1) [printingOperand m2 b2] []
      = (RVal.bool (b1 && b2), [m1, m2]) ∧
    rinha_exec_logical_or_ (printingOperand m1 b1) [printingOperand m2 b2] []
      = (RVal.bool (b1 || b2), [m1, m2]) := by
  constructor
  · rfl
  · rfl

/-- Helper: the T-division remainder has the sign of the dividend (nonpositive
dividend side; the nonnegative side is Int.tmod_nonneg). -/
theorem tmod_nonpos_of_nonpos (l r : Int) (hl : l ≤ 0) : Int.tmod l r ≤ 0 := by
  cases l with
  | ofNat m =>
    have h0 : (m : Int) ≤ 0 := hl
    have hm : m = 0 := by omega
    subst hm
    simp [Int.zero_tmod]
  | negSucc m =>
    cases r with
    | ofNat n =>
      show -(Int.ofNat (Nat.succ m % n)) ≤ 0
      exact neg_nonpos.mpr (Int.ofNat_nonneg _)
    | negSucc n =>
      show -(Int.ofNat (Nat.succ m % Nat.succ n)) ≤ 0
      exact neg_nonpos.mpr (Int.ofNat_nonneg _)

/-- Helper: the T-division remainder is smaller than the divisor in absolute
value whenever the divisor is nonzero. -/
theorem natAbs_tmod_lt_natAbs (l r : Int) (hr : r ≠ 0) :
    (Int.tmod l r).natAbs < r.natAbs := by
  cases l with
  | ofNat m =>
    cases r with
    | ofNat n =>
      have hn : 0 < n := by
        rcases Nat.eq_zero_or_pos n with h0 | h0
        · exact absurd (by simp [h0]) hr
        · exact h0
      simpa [Int.tmod] using Nat.mod_lt m hn
    | negSucc n =>
      simpa [Int.tmod] using Nat.mod_lt m (Nat.succ_pos n)
  | negSucc m =>
    cases r with
    | ofNat n =>
      have hn : 0 < n := by
        rcases Nat.eq_zero_or_pos n with h0 | h0
        · exact absurd (by simp [h0]) hr
        · exact h0
      simpa [Int.tmod] using Nat.mod_lt (m + 1) hn
    | negSucc n =>
      simpa [Int.tmod] using Nat.mod_lt (m + 1) (Nat.succ_pos n)

/-- C7 counterexample: evaluating `1 / 0` (or `5 % 0`) reaches the unguarded
`left->number /= right.number` of rinha_exec_term_ (lines 1510-1515); there is
no divisor check anywhere, so the machine division traps (SIGFPE) — the
interpreter never prints a diagnostic naming the offending token and never
performs an orderly exit(EXIT_FAILURE), contrary to the claim. -/
theorem c7_counterexample :
    rinha_exec_term_step TermOp.divide 1 0 = ExecOutcome.trap ∧
    rinha_exec_term_step TermOp.mod 5 0 = ExecOutcome.trap ∧
    ∀ msg, ExecOutcome.trap ≠ ExecOutcome.fatal msg := by
  refine ⟨by decide, by decide, ?_⟩
  intro msg h
  exact ExecOutcome.noConfusion h

/-- C7 (amended): for a nonzero divisor (and excluding the INT64_MIN / -1
overflow case) `/` is C truncating division (Int.tdiv) and `%` is the remainder
with the sign of the dividend (Int.tmod), satisfying the division identity and
the magnitude bound; a zero divisor is NOT intercepted — the interpreter
executes the machine division unguarded, which traps with no diagnostic and no
orderly failure exit. -/
theorem c7_amended (l r : Int) (hr : r ≠ 0) (hmin : ¬(l = INT64_MIN ∧ r = -1)) :
    rinha_exec_term_step TermOp.divide l r = ExecOutcome.ok (RVal.int (Int.tdiv l r)) ∧
    rinha_exec_term_step TermOp.mod l r = ExecOutcome.ok (RVal.int (Int.tmod l r)) ∧
    r * Int.tdiv l r + Int.tmod l r = l ∧
    (0 ≤ l → 0 ≤ Int.tmod l r) ∧
    (l ≤ 0 → Int.tmod l r ≤ 0) ∧
    (Int.tmod l r).natAbs < r.natAbs ∧
    rinha_exec_term_step TermOp.divide l 0 = ExecOutcome.trap ∧
    rinha_exec_term_step TermOp.mod l 0 = ExecOutcome.trap := by
  have hcond : ¬(r = 0 ∨ (l = INT64_MIN ∧ r = -1)) := by tauto
  refine ⟨?_, ?_, Int.tdiv_add_tmod l r, fun h => Int.tmod_nonneg r h,
    fun h => tmod_nonpos_of_nonpos l r h, natAbs_tmod_lt_natAbs l r hr, ?_, ?_⟩
  · simp [rinha_exec_term_step, hcond]
  · simp [rinha_exec_term_step, hcond]
  · simp [rinha_exec_term_step]
  · simp [rinha_exec_term_step]

/-- C7 witness: the amended statement at `l = 7`, `r = -2`
(so tdiv truncates toward zero: 7 tdiv -2 = -3, 7 tmod -2 = 1). -/
theorem c7_amended_witness :
    ((-2 : Int) ≠ 0 ∧ ¬((7 : Int) = INT64_MIN ∧ (-2 : Int) = -1)) ∧
    (rinha_exec_term_step TermOp.divide 7 (-2) = ExecOutcome.ok (RVal.int (Int.tdiv 7 (-2))) ∧
      rinha_exec_term_step TermOp.mod 7 (-2) = ExecOutcome.ok (RVal.int (Int.tmod 7 (-2))) ∧
      (-2 : Int) * Int.tdiv 7 (-2) + Int.tmod 7 (-2) = 7 ∧
      (0 ≤ (7 : Int) → 0 ≤ Int.tmod 7 (-2)) ∧
      ((7 : Int) ≤ 0 → Int.tmod 7 (-2) ≤ 0) ∧
      (Int.tmod 7 (-2)).natAbs < (-2 : Int).natAbs ∧
      rinha_exec_term_step TermOp.divide 7 0 = ExecOutcome.trap ∧
      rinha_exec_term_step TermOp.mod 7 0 = ExecOutcome.trap) :=
  ⟨⟨by decide, by decide⟩, c7_amended 7 (-2) (by decide) (by decide)⟩

/-- C8 counterexample: printing the nested tuple `((1, 2), 3)` does not render
it recursively — tuple construction already flattened the inner tuple into
integer 0 (see C5) — and the tuple arm of rinha_print_ prints each component
with `lf = false`, whose `%c` conversion writes an actual NUL byte after the
component.  The program `print(((1, 2), 3));` therefore emits the bytes
`(0<NUL>,3<NUL>)\n`, not `((1,2),3)\n`. -/
theorem c8_counterexample :
    (rinha_print_statement_out
        (rinha_value_tuple_set_ (rinha_value_tuple_set_ (RVal.int 1) (RVal.int 2))
          (RVal.int 3))).2
      = "(0\x00,3\x00)\n" ∧
    "(0\x00,3\x00)\n" ≠ "((1,2),3)\n" := by
  refine ⟨by decide, by decide⟩

/-- C8 (amended): print renders an integer as decimal, a boolean as
true/false, a string as its raw bytes and a function as the literal <#closure>,
each followed by exactly one newline, and returns the printed value.  A tuple
of integers is rendered as `(a<NUL>,b<NUL>)` followed by one newline — the
recursive component prints pass `lf = false` whose `%c` writes a NUL byte — and
a nested tuple never reaches the recursive rendering because construction
flattens the inner tuple into an integer. -/
theorem c8_amended (n : Int) (b : Bool) (s : String) (addr : Int) (x y : Int) (v : RVal) :
    rinha_print_statement_out (RVal.int n) = (RVal.int n, intDec n ++ "\n") ∧
    rinha_print_statement_out (RVal.bool b)
      = (RVal.bool b, (if b then "true" else "false") ++ "\n") ∧
    rinha_print_statement_out (RVal.str s) = (RVal.str s, s ++ "\n") ∧
    rinha_print_statement_out (RVal.fnPtr addr) = (RVal.fnPtr addr, "<#closure>" ++ "\n") ∧
    rinha_print_statement_out (rinha_value_tuple_set_ (RVal.int x) (RVal.int y))
      = (rinha_value_tuple_set_ (RVal.int x) (RVal.int y),
        "(" ++ intDec x ++ "\x00" ++ "," ++ intDec y ++ "\x00" ++ ")\n") ∧
    (rinha_print_statement_out v).1 = v := by
  refine ⟨rfl, rfl, rfl, rfl, ?_, rfl⟩
  simp [rinha_print_statement_out, rinha_print_out, rinha_value_tuple_set_, rinha_value_set_,
    rinha_value_number_set_, RVal.numberField, primOfVal, printPrimOut, printEnd,
    String.append_assoc]

/-- Helper: running string creations over an appended list splits as two runs. -/
theorem stringPoolRun_append (p : StringPool) (ss ts : List String) :
    stringPoolRun p (ss ++ ts) = stringPoolRun (stringPoolRun p ss) ts := by
  simp [stringPoolRun, List.foldl_append]

/-- Helper: the pool counter after one string creation. -/
theorem string_set_alloc_index (p : StringPool) (s : String) :
    (rinha_value_string_set_alloc p s).2.index = (p.index + 1) % 2 ^ 32 := rfl

/-- Helper: the buffer index handed out by one string creation. -/
theorem string_set_alloc_slot (p : StringPool) (s : String) :
    (rinha_value_string_set_alloc p s).1
      = ((p.index + 1) % 2 ^ 32) % RINHA_CONFIG_STRING_POOL_SIZE := rfl

/-- Helper: the buffer contents after one string creation. -/
theorem string_set_alloc_pool (p : StringPool) (s : String) :
    (rinha_value_string_set_alloc p s).2.pool
      = Function.update p.pool
          (((p.index + 1) % 2 ^ 32) % RINHA_CONFIG_STRING_POOL_SIZE) (truncStr s) := rfl

/-- Helper: the pool counter advances by one per creation, modulo 2^32. -/
theorem stringPoolRun_index :
    ∀ (ss : List String) (p : StringPool), p.index < 2 ^ 32 →
      (stringPoolRun p ss).index = (p.index + ss.length) % 2 ^ 32 := by
  intro ss
  induction ss with
  | nil =>
    intro p hp
    simpa [stringPoolRun] using (Nat.mod_eq_of_lt hp).symm
  | cons s ss ih =>
    intro p hp
    have h2 : (rinha_value_string_set_alloc p s).2.index < 2 ^ 32 := by
      rw [string_set_alloc_index]
      exact Nat.mod_lt _ (by norm_num)
    calc (stringPoolRun p (s :: ss)).index
        = (stringPoolRun (rinha_value_string_set_alloc p s).2 ss).index := rfl
      _ = ((rinha_value_string_set_alloc p s).2.index + ss.length) % 2 ^ 32 := ih _ h2
      _ = ((p.index + 1) % 2 ^ 32 + ss.length) % 2 ^ 32 := by rw [string_set_alloc_index]
      _ = (p.index + 1 + ss.length) % 2 ^ 32 := Nat.mod_add_mod _ _ _
      _ = (p.index + (s :: ss).length) % 2 ^ 32 := by
          rw [List.length_cons]
          congr 1
          omega

/-- C10: rinha_alloc_static_string hands out buffer `(index + 1) % 32` of the
fixed 32-buffer pool — round-robin, total, with no exhaustion signal of any
kind — so after 32 subsequent string creations the very buffer backing an
existing string value is written again: the value's observable contents become
the 32nd new string, changing without any assignment to the value.  Here `s` is
the original creation, `ss ++ [slast]` the 32 subsequent creations. -/
theorem c10_pool_reuse (p : StringPool) (s slast : String) (ss : List String)
    (hlen : ss.length = 31) (hdiff : truncStr slast ≠ truncStr s) :
    (rinha_alloc_static_string p).1 = (p.index + 1) % RINHA_CONFIG_STRING_POOL_SIZE ∧
    (stringPoolRun (rinha_value_string_set_alloc p s).2 (ss ++ [slast])).pool
        (rinha_value_string_set_alloc p s).1 = truncStr slast ∧
    (stringPoolRun (rinha_value_string_set_alloc p s).2 (ss ++ [slast])).pool
        (rinha_value_string_set_alloc p s).1
      ≠ (rinha_value_string_set_alloc p s).2.pool (rinha_value_string_set_alloc p s).1 := by
  have hdvd : (RINHA_CONFIG_STRING_POOL_SIZE : Nat) ∣ 2 ^ 32 :=
    ⟨2 ^ 27, by norm_num [RINHA_CONFIG_STRING_POOL_SIZE]⟩
  have habs1 : (rinha_alloc_static_string p).1
      = ((p.index + 1) % 2 ^ 32) % RINHA_CONFIG_STRING_POOL_SIZE := rfl
  have hq2 : (rinha_value_string_set_alloc p s).2.index < 2 ^ 32 := by
    rw [string_set_alloc_index]
    exact Nat.mod_lt _ (by norm_num)
  have hqidx : (stringPoolRun (rinha_value_string_set_alloc p s).2 ss).index
      = ((p.index + 1) % 2 ^ 32 + 31) % 2 ^ 32 := by
    rw [stringPoolRun_index ss _ hq2, string_set_alloc_index, hlen]
  have hslot : (((stringPoolRun (rinha_value_string_set_alloc p s).2 ss).index + 1) % 2 ^ 32)
        % RINHA_CONFIG_STRING_POOL_SIZE
      = (rinha_value_string_set_alloc p s).1 := by
    rw [hqidx, string_set_alloc_slot]
    show _ % 32 = _ % 32
    omega
  have hfinal : (stringPoolRun (rinha_value_string_set_alloc p s).2 (ss ++ [slast])).pool
      (rinha_value_string_set_alloc p s).1 = truncStr slast := by
    rw [stringPoolRun_append]
    show (rinha_value_string_set_alloc (stringPoolRun (rinha_value_string_set_alloc p s).2 ss)
        slast).2.pool (rinha_value_string_set_alloc p s).1 = truncStr slast
    rw [string_set_alloc_pool, ← hslot]
    exact Function.update_same _ _ _
  refine ⟨?_, hfinal, ?_⟩
  · rw [habs1]
    exact Nat.mod_mod_of_dvd _ hdvd
  · rw [hfinal, string_set_alloc_pool, ← string_set_alloc_slot, Function.update_same]
    exact hdiff

/-- C10 witness: the reuse statement at a concrete pool and 32 concrete
subsequent creations. -/
theorem c10_pool_reuse_witness :
    ((List.replicate 31 "x").length = 31 ∧ truncStr "y" ≠ truncStr "hello") ∧
    ((rinha_alloc_static_string (StringPool.mk 0 (fun _ => ""))).1
        = ((StringPool.mk 0 (fun _ => "")).index + 1) % RINHA_CONFIG_STRING_POOL_SIZE ∧
      (stringPoolRun (rinha_value_string_set_alloc (StringPool.mk 0 (fun _ => "")) "hello").2
          (List.replicate 31 "x" ++ ["y"])).pool
          (rinha_value_string_set_alloc (StringPool.mk 0 (fun _ => "")) "hello").1
        = truncStr "y" ∧
      (stringPoolRun (rinha_value_string_set_alloc (StringPool.mk 0 (fun _ => "")) "hello").2
          (List.replicate 31 "x" ++ ["y"])).pool
          (rinha_value_string_set_alloc (StringPool.mk 0 (fun _ => "")) "hello").1
        ≠ (rinha_value_string_set_alloc (StringPool.mk 0 (fun _ => "")) "hello").2.pool
            (rinha_value_string_set_alloc (StringPool.mk 0 (fun _ => "")) "hello").1) :=
  ⟨⟨by decide, by decide⟩,
    c10_pool_reuse (StringPool.mk 0 (fun _ => "")) "hello" "y" (List.replicate 31 "x")
      (by decide) (by decide)⟩

/-- Helper: every character produced by the decimal digit writer is a digit, so
in particular never the letter of a boolean literal. -/
theorem natDecCharsAux_ne_t :
    ∀ (fuel n : Nat), ∀ c ∈ natDecCharsAux fuel n, c ≠ 't' := by
  intro fuel
  induction fuel with
  | zero =>
    intro n c hc
    simp [natDecCharsAux] at hc
  | succ fuel ih =>
    intro n c hc
    by_cases hn : n < 10
    · simp [natDecCharsAux, hn] at hc
      subst hc
      interval_cases n <;> decide
    · simp [natDecCharsAux, hn] at hc
      rcases hc with hc | hc
      · exact ih (n / 10) c hc
      · subst hc
        have h10 : n % 10 < 10 := Nat.mod_lt _ (by omega)
        revert h10
        generalize n % 10 = m
        intro h10
        interval_cases m <;> decide

/-- Helper: the decimal rendering of an integer never contains the letter `t`. -/
theorem t_not_mem_intDec (i : Int) : Char.ofNat 116 ∉ (intDec i).data := by
  intro hmem
  unfold intDec at hmem
  split at hmem
  · rw [String.data_append] at hmem
    rcases List.mem_append.mp hmem with h | h
    · exact absurd h (by decide)
    · exact natDecCharsAux_ne_t _ _ _ (by simpa [natDec, natDecChars] using h) (by decide)
  · exact natDecCharsAux_ne_t _ _ _ (by simpa [natDec, natDecChars] using hmem) (by decide)

/-- Helper: appending a printf "%d" rendering to "a" can never produce the text
"atrue", whatever 32-bit quantity the conversion consumed. -/
theorem a_dec32_ne_atrue (p : Int) :
    RVal.str (truncStr ("a" ++ dec32 p)) ≠ RVal.str ("a" ++ "true") := by
  intro hval
  have h : truncStr ("a" ++ dec32 p) = "a" ++ "true" := by
    injection hval
  have hd : ("a" ++ dec32 p).data.take RINHA_CONFIG_STRING_VALUE_SIZE = ("a" ++ "true").data :=
    congrArg String.data h
  have hmem : Char.ofNat 116 ∈ ("a" ++ dec32 p).data.take RINHA_CONFIG_STRING_VALUE_SIZE := by
    rw [hd]
    decide
  have ht : Char.ofNat 116 ∈ ("a" ++ dec32 p).data := List.take_subset _ _ hmem
  rw [String.data_append] at ht
  rcases List.mem_append.mp ht with h1 | h2
  · exact absurd h1 (by decide)
  · exact t_not_mem_intDec _ h2

/-- C6: evaluating `"a" + true` takes the concatenation path of
rinha_exec_calc_ but rinha_value_concat_ (line 1544) formats
`BOOL_NAME(right->boolean)` — a `char *` to the literal "true" — with the
`%d` conversion, so the output is the decimal rendering of (the low 32 bits of)
that POINTER, never the text "true", whatever the address is.  The integer-sum
arm for two INTEGER operands does hold (int64 arithmetic). -/
theorem c6_code_eval (boolNameAddr : Bool → Int) :
    rinha_exec_calc_step boolNameAddr CalcOp.plus (RVal.str "a") (RVal.bool true)
      = RVal.str (truncStr ("a" ++ dec32 (boolNameAddr true))) ∧
    rinha_exec_calc_step boolNameAddr CalcOp.plus (RVal.str "a") (RVal.bool true)
      ≠ RVal.str ("a" ++ "true") ∧
    ∀ x y : Int, rinha_exec_calc_step boolNameAddr CalcOp.plus (RVal.int x) (RVal.int y)
      = RVal.int (int64wrap (x + y)) := by
  refine ⟨?_, ?_, ?_⟩
  · simp [rinha_exec_calc_step, RVal.isInt, rinha_value_concat_]
  · have heq : rinha_exec_calc_step boolNameAddr CalcOp.plus (RVal.str "a") (RVal.bool true)
        = RVal.str (truncStr ("a" ++ dec32 (boolNameAddr true))) := by
      simp [rinha_exec_calc_step, RVal.isInt, rinha_value_concat_]
    rw [heq]
    exact a_dec32_ne_atrue (boolNameAddr true)
  · intro x y
    simp [rinha_exec_calc_step, RVal.isInt, RVal.numberField]

/-- Helper: the reference evaluation is monotone in fuel — more fuel cannot
change a result that was already reached. -/
theorem evalPure_mono (F : ArgTriple → CallTree) :
    ∀ (fuel fuel2 : Nat) (t : CallTree) (v : RVal), fuel ≤ fuel2 →
      evalPure F fuel t = some v → evalPure F fuel2 t = some v := by
  intro fuel
  induction fuel with
  | zero =>
    intro fuel2 t v _ hev
    cases t with
    | ret w => cases fuel2 <;> simpa [evalPure] using hev
    | call a k => simp [evalPure] at hev
    | mkStr s k => simp [evalPure] at hev
  | succ m ih =>
    intro fuel2 t v hle hev
    cases t with
    | ret w => cases fuel2 <;> simpa [evalPure] using hev
    | call a k =>
      cases fuel2 with
      | zero => omega
      | succ m2 =>
        have hle2 : m ≤ m2 := Nat.le_of_succ_le_succ hle
        simp only [evalPure] at hev ⊢
        rcases hFa : evalPure F m (F a) with _ | w
        · rw [hFa] at hev
          simp at hev
        · rw [hFa] at hev
          simp only [] at hev
          rw [ih m2 (F a) w hle2 hFa]
          simpa using ih m2 (k w) v hle2 (by simpa using hev)
    | mkStr s k =>
      cases fuel2 with
      | zero => omega
      | succ m2 =>
        have hle2 : m ≤ m2 := Nat.le_of_succ_le_succ hle
        simp only [evalPure] at hev ⊢
        exact ih m2 (k (.str (truncStr s))) v hle2 hev

/-- Helper: the reference evaluation is deterministic across fuel amounts. -/
theorem evalPure_det (F : ArgTriple → CallTree) {f1 f2 : Nat} {t : CallTree} {v w : RVal}
    (h1 : evalPure F f1 t = some v) (h2 : evalPure F f2 t = some w) : v = w := by
  have hv := evalPure_mono F f1 (max f1 f2) t v (Nat.le_max_left _ _) h1
  have hw := evalPure_mono F f2 (max f1 f2) t w (Nat.le_max_right _ _) h2
  rw [hv] at hw
  exact Option.some.inj hw

/-- Helper: copying a string-free primitive into a cache entry leaves the pool
untouched, and reading it back out of ANY later pool returns it unchanged. -/
theorem var_copy_prim_strFree (p : StringPool) (a : RPrim) (ha : strFreePrim a = true) :
    (rinha_var_copy_prim_in p a).2 = p ∧
    ∀ q : StringPool, rinha_var_copy_prim_out q (rinha_var_copy_prim_in p a).1 = (a, q) := by
  cases a with
  | undef => exact ⟨rfl, fun q => rfl⟩
  | int n => exact ⟨rfl, fun q => rfl⟩
  | bool b => exact ⟨rfl, fun q => rfl⟩
  | str s => simp [strFreePrim] at ha
  | fnPtr x => exact ⟨rfl, fun q => rfl⟩

/-- Helper: copying a string-free value into a cache entry leaves the pool
untouched, and reading it back out of ANY later pool returns it unchanged —
only string payloads are pool-backed and corruptible. -/
theorem var_copy_in_strFree (p : StringPool) (v : RVal) (hv : strFree v = true) :
    (rinha_var_copy_in p v).2 = p ∧
    ∀ q : StringPool, rinha_var_copy_out q (rinha_var_copy_in p v).1 = (v, q) := by
  cases v with
  | undef => exact ⟨rfl, fun q => rfl⟩
  | int n => exact ⟨rfl, fun q => rfl⟩
  | bool b => exact ⟨rfl, fun q => rfl⟩
  | str s => simp [strFree] at hv
  | fnPtr x => exact ⟨rfl, fun q => rfl⟩
  | tuple a b =>
    have hab : strFreePrim a = true ∧ strFreePrim b = true := by
      simpa [strFree] using hv
    obtain ⟨hpa, houta⟩ := var_copy_prim_strFree p a hab.1
    obtain ⟨hpb, houtb⟩ := var_copy_prim_strFree p b hab.2
    constructor
    · simp only [rinha_var_copy_in, hpa, hpb]
    · intro q
      simp only [rinha_var_copy_in, rinha_var_copy_out, hpa]
      rw [houta q]
      simp only []
      rw [houtb q]

/-- Helper: on an all-integer call, a cache lookup over a sound cache never
changes the memo state (the per-argument type checks pass, and a hit reads a
string-free entry, which leaves the pool alone). -/
theorem memo_get_int_snd (F : ArgTriple → CallTree) (st : MemoState) (a : ArgTriple) (h : Nat)
    (hInv : MemoInv F st) :
    (rinha_call_memo_cache_get_ st (argSlotsOf a) h).2 = st := by
  unfold rinha_call_memo_cache_get_
  split
  · rfl
  · split
    · rfl
    · rename_i e he
      simp only [argSlotsOf, intArgNonInt, if_false, Bool.false_eq_true]
      split
      · rfl
      · obtain ⟨fl, v, hv, hsf, hout⟩ := hInv h e he
        simp only [hout st.pool]

/-- Helper: under the cache soundness invariant, a hit on an all-integer call
returns the pure value of the function at the requested arguments. -/
theorem memo_get_sound (F : ArgTriple → CallTree) (st : MemoState) (a : ArgTriple) (hsh : Nat)
    (u : RVal) (st1 : MemoState) (hInv : MemoInv F st)
    (hget : rinha_call_memo_cache_get_ st (argSlotsOf a) hsh = (some u, st1)) :
    ∃ fuel, evalPure F fuel (F a) = some u := by
  unfold rinha_call_memo_cache_get_ at hget
  split at hget
  · simp at hget
  · split at hget
    · simp at hget
    · rename_i cache hcache
      simp only [argSlotsOf, intArgNonInt, if_false, Bool.false_eq_true] at hget
      split at hget
      · simp at hget
      · rename_i hmatch
        push_neg at hmatch
        obtain ⟨h0, h1, h2⟩ := hmatch
        simp only [Prod.mk.injEq] at hget
        obtain ⟨hu, -⟩ := hget
        obtain ⟨fl, v, hv, hsf, hout⟩ := hInv hsh cache hcache
        refine ⟨fl, ?_⟩
        have hTriple : entryTriple cache = a := by
          cases a
          simp only [argSlotsOf, RVal.numberField] at h0 h1 h2
          simp [entryTriple, h0, h1, h2]
        rw [hTriple] at hv
        rw [hout st.pool] at hu
        simp only [] at hu
        rw [hv, hu]

/-- Helper: storing the just-computed string-free pure value of the function
preserves the cache soundness invariant. -/
theorem memo_set_inv (F : ArgTriple → CallTree) (st : MemoState) (a : ArgTriple) (v : RVal)
    (hsh fl : Nat) (hInv : MemoInv F st) (hv : evalPure F fl (F a) = some v)
    (hsf : strFree v = true) :
    MemoInv F (rinha_call_memo_cache_set_ st (argSlotsOf a) v hsh) := by
  unfold rinha_call_memo_cache_set_
  split
  · exact hInv
  · split
    · exact hInv
    · split
      · exact hInv
      · intro hh e he
        simp only at he
        by_cases hEq : hh = hsh
        · subst hEq
          rw [Function.update_same] at he
          obtain rfl := Option.some.inj he
          refine ⟨fl, v, ?_, hsf, ?_⟩
          · have hTriple : entryTriple
                { input0 := (argSlotsOf a).arg0.numberField
                  input1 := (argSlotsOf a).arg1.numberField
                  input2 := (argSlotsOf a).arg2.numberField
                  value := (rinha_var_copy_in st.pool v).1 } = a := by
              cases a
              simp [entryTriple, argSlotsOf, RVal.numberField]
            rw [hTriple]
            exact hv
          · intro q
            exact (var_copy_in_strFree st.pool v hsf).2 q
        · rw [Function.update_noteq hEq] at he
          exact hInv hh e he

/-- Helper: a cache lookup with the global flag down is a no-op miss. -/
theorem memo_get_disabled (st : MemoState) (args : ArgSlots) (h : Nat)
    (hst : st.globalEnabled = false) :
    rinha_call_memo_cache_get_ st args h = (none, st) := by
  unfold rinha_call_memo_cache_get_
  rw [if_pos (by simp [hst])]

/-- Helper: a cache store with the global flag down is a no-op. -/
theorem memo_set_disabled (st : MemoState) (args : ArgSlots) (v : RVal) (h : Nat)
    (hst : st.globalEnabled = false) :
    rinha_call_memo_cache_set_ st args v h = st := by
  unfold rinha_call_memo_cache_set_
  rw [if_pos (by simp [hst])]

/-- Helper: with the global kill-switch down, the memoized evaluator computes
exactly the reference value (the cache is never consulted or written; only the
pool advances with the body's own string creations, which the values do not
depend on), and the flag stays down. -/
theorem evalMemo_disabled (F : ArgTriple → CallTree) :
    ∀ (fuel : Nat) (st : MemoState) (t : CallTree), st.globalEnabled = false →
      (evalMemo F fuel st t).1 = evalPure F fuel t ∧
      (evalMemo F fuel st t).2.globalEnabled = false := by
  intro fuel
  induction fuel with
  | zero =>
    intro st t hst
    cases t with
    | ret v => exact ⟨rfl, hst⟩
    | call a k => exact ⟨rfl, hst⟩
    | mkStr s k => exact ⟨rfl, hst⟩
  | succ m ih =>
    intro st t hst
    cases t with
    | ret v => exact ⟨rfl, hst⟩
    | mkStr s k =>
      simp only [evalMemo, evalPure]
      exact ih _ (k (.str (truncStr s))) hst
    | call a k =>
      simp only [evalMemo, evalPure]
      rw [memo_get_disabled st _ _ hst]
      simp only []
      rcases hMa : evalMemo F m st (F a) with ⟨o, st2⟩
      have hprev := ih st (F a) hst
      rw [hMa] at hprev
      obtain ⟨ho, hst2⟩ := hprev
      cases o with
      | none =>
        simp only [] at ho ⊢
        rw [← ho]
        exact ⟨rfl, hst2⟩
      | some w =>
        simp only [] at ho hst2 ⊢
        rw [memo_set_disabled st2 _ _ _ hst2, ← ho]
        exact ih st2 (k w) hst2

/-- Helper: forward simulation — whenever the reference run terminates with a
value and every call result of the function is string-free, the memoized run
with a sound cache terminates with the SAME value at the same fuel, and its
final cache is again sound. -/
theorem evalMemo_sim (F : ArgTriple → CallTree)
    (HF : ∀ (a : ArgTriple) (fl : Nat) (w : RVal),
      evalPure F fl (F a) = some w → strFree w = true) :
    ∀ (fuel : Nat) (st : MemoState) (t : CallTree) (v : RVal), MemoInv F st →
      evalPure F fuel t = some v →
      (evalMemo F fuel st t).1 = some v ∧ MemoInv F (evalMemo F fuel st t).2 := by
  intro fuel
  induction fuel with
  | zero =>
    intro st t v hInv hev
    cases t with
    | ret w =>
      simp only [evalPure] at hev
      obtain rfl := Option.some.inj hev
      exact ⟨rfl, hInv⟩
    | call a k => simp [evalPure] at hev
    | mkStr s k => simp [evalPure] at hev
  | succ m ih =>
    intro st t v hInv hev
    cases t with
    | ret w =>
      simp only [evalPure] at hev
      obtain rfl := Option.some.inj hev
      exact ⟨rfl, hInv⟩
    | mkStr s k =>
      simp only [evalPure] at hev
      simp only [evalMemo]
      exact ih _ (k (.str (truncStr s))) v hInv hev
    | call a k =>
      simp only [evalPure] at hev
      rcases hFa : evalPure F m (F a) with _ | w
      · rw [hFa] at hev
        simp at hev
      · rw [hFa] at hev
        simp only [] at hev
        simp only [evalMemo]
        split
        · rename_i u st1 heq
          have hst1 : st1 = st := by
            have h2 := memo_get_int_snd F st a
              (if st.globalEnabled ∧ st.fnEnabled then rinha_hash_stack_ [a.a0, a.a1, a.a2] else 0)
              hInv
            rw [heq] at h2
            simpa using h2
          obtain ⟨fl, hfl⟩ := memo_get_sound F st a _ u st1 hInv heq
          have huw : u = w := evalPure_det F hfl hFa
          rw [hst1, huw]
          exact ih st (k w) v hInv (by simpa using hev)
        · rename_i st1 heq
          have hst1 : st1 = st := by
            have h2 := memo_get_int_snd F st a
              (if st.globalEnabled ∧ st.fnEnabled then rinha_hash_stack_ [a.a0, a.a1, a.a2] else 0)
              hInv
            rw [heq] at h2
            simpa using h2
          rw [hst1]
          obtain ⟨hres, hInvB⟩ := ih st (F a) w hInv hFa
          split
          · rename_i st2 heq2
            rw [heq2] at hres
            simp at hres
          · rename_i u2 st2 heq2
            have hu2 : u2 = w := by
              rw [heq2] at hres
              simpa using hres
            have hInv2 : MemoInv F st2 := by
              rw [heq2] at hInvB
              exact hInvB
            rw [hu2]
            exact ih _ (k w) v
              (memo_set_inv F st2 a w _ m hInv2 hFa (HF a m w hFa))
              (by simpa using hev)

/-- C1 counterexample: the claim is false for a pure recursive function whose
result is a STRING.  rinha_call_memo_cache_set_ stores a string result through
rinha_var_copy into a buffer of the recyclable 32-slot pool; 32 subsequent
string creations overwrite that buffer (exactly the reuse proven for C10), and
a later cache hit copies the OVERWRITTEN bytes out.  Concretely, for the pure
0-ary-style body `mkStr "a"` (think `let f = fn (n) => { "a" };` — no print, no
writes, integer argument): call f(1); create 32 strings "x"; call f(1) again.
With memoization the second call hits the cache and returns "x" (the recycled
buffer), while the run with the kill-switch fired from the start re-executes
the body and returns "a".  The two runs' final values differ, refuting the
claimed observational equivalence. -/
theorem c1_counterexample :
    (evalMemo (fun _ => CallTree.mkStr "a" CallTree.ret) 40 initMemoState
        (CallTree.call (ArgTriple.mk 1 0 0) (fun _ =>
          mkStrs 32 (CallTree.call (ArgTriple.mk 1 0 0) CallTree.ret)))).1
      = some (RVal.str "x") ∧
    (evalMemo (fun _ => CallTree.mkStr "a" CallTree.ret) 40 (killSwitch initMemoState)
        (CallTree.call (ArgTriple.mk 1 0 0) (fun _ =>
          mkStrs 32 (CallTree.call (ArgTriple.mk 1 0 0) CallTree.ret)))).1
      = some (RVal.str "a") ∧
    RVal.str "x" ≠ RVal.str "a" := by
  refine ⟨by decide, by decide, by decide⟩

/-- C1 (amended): for a pure recursive function with all-integer arguments
whose call results are string-free (integers, booleans, function references,
and tuples of those — values the cache stores by value rather than through a
recyclable pool buffer), a terminating run under the memoization protocol of
rinha_exec_function_ / rinha_call_memo_cache_get_ / rinha_call_memo_cache_set_
yields exactly the value of the run with the global kill-switch treated as
fired from the start, and a pure body prints nothing in either run: for such
functions the memo cache changes performance, never observable results.  When
a cached result contains a string, the entry points into the 32-buffer pool
and a hit after 32 intervening string creations returns the overwritten bytes
(see the counterexample), so the equivalence fails.  (A literally pre-cleared
C flag would be re-raised by the depth-0 reset of lines 1704-1706 — claim C2 —
so the comparison run here is memoization disabled throughout, which is what
the specification describes.) -/
theorem c1_amended (F : ArgTriple → CallTree) (fuel : Nat) (t : CallTree) (v : RVal)
    (HF : ∀ (a : ArgTriple) (fl : Nat) (w : RVal),
      evalPure F fl (F a) = some w → strFree w = true)
    (hterm : evalPure F fuel t = some v) :
    (evalMemo F fuel initMemoState t).1 = some v ∧
    (evalMemo F fuel (killSwitch initMemoState) t).1 = some v := by
  constructor
  · have hInv : MemoInv F initMemoState := by
      intro h e he
      simp [initMemoState] at he
    exact (evalMemo_sim F HF fuel initMemoState t v hInv hterm).1
  · rw [(evalMemo_disabled F fuel (killSwitch initMemoState) t rfl).1]
    exact hterm

/-- C1 witness: the amended equivalence at one concrete call of the pure
integer-valued function adding its first two arguments. -/
theorem c1_amended_witness :
    ((∀ (a : ArgTriple) (fl : Nat) (w : RVal),
        evalPure (fun t => CallTree.ret (RVal.int (t.a0 + t.a1))) fl
          ((fun t => CallTree.ret (RVal.int (t.a0 + t.a1))) a) = some w → strFree w = true) ∧
      evalPure (fun t => CallTree.ret (RVal.int (t.a0 + t.a1))) 1
        (CallTree.call (ArgTriple.mk 1 2 0) CallTree.ret) = some (RVal.int 3)) ∧
    ((evalMemo (fun t => CallTree.ret (RVal.int (t.a0 + t.a1))) 1 initMemoState
        (CallTree.call (ArgTriple.mk 1 2 0) CallTree.ret)).1 = some (RVal.int 3) ∧
      (evalMemo (fun t => CallTree.ret (RVal.int (t.a0 + t.a1))) 1
        (killSwitch initMemoState) (CallTree.call (ArgTriple.mk 1 2 0) CallTree.ret)).1
        = some (RVal.int 3)) :=
  ⟨⟨fun a fl w h => by
      cases fl with
      | zero =>
        simp only [evalPure] at h
        obtain rfl := Option.some.inj h
        rfl
      | succ m =>
        simp only [evalPure] at h
        obtain rfl := Option.some.inj h
        rfl,
    by decide⟩,
    c1_amended (fun t => CallTree.ret (RVal.int (t.a0 + t.a1))) 1
      (CallTree.call (ArgTriple.mk 1 2 0) CallTree.ret) (RVal.int 3)
      (fun a fl w h => by
        cases fl with
        | zero =>
          simp only [evalPure] at h
          obtain rfl := Option.some.inj h
          rfl
        | succ m =>
          simp only [evalPure] at h
          obtain rfl := Option.some.inj h
          rfl)
      (by decide)⟩
